import Mathlib

/-!
Verification development for the papyra actor runtime.

Each section embeds one part of the source tree as executable Lean
definitions, then proves the stated properties about them.  Machine
integers are modelled as Int/Nat (Python integers are unbounded),
monotonic-clock instants as rationals, fallible operations as
Option/Except, and stateful procedures as explicit state-passing
functions.
-/

namespace Papyra

/-!
## Embedding of src/papyra/address.py

ActorAddress is a frozen dataclass with fields system : str and
actor_id : int.  __str__ renders f"{system}:{actor_id}" and parse
splits at the first colon, strips both halves with str.strip, requires
a non-empty system part, and feeds the id part to Python int().
-/

/-- The whitespace characters recognised by Python str.strip and int()
(ASCII subset: space, tab, newline, carriage return, vertical tab,
form feed). -/
def isPySpace (c : Char) : Bool :=
  c = ' ' || c = '\t' || c = '\n' || c = '\r' || c = Char.ofNat 11 || c = Char.ofNat 12

/-- Python str.strip on a character list: remove leading and trailing
whitespace. -/
def pyStripList (l : List Char) : List Char :=
  ((l.dropWhile isPySpace).reverse.dropWhile isPySpace).reverse

/-- Digit accumulator for Python base-10 int literals: after at least one
digit has been read, a single underscore may separate digit groups. -/
def pyDigitsAux (acc : Nat) : List Char → Option Nat
  | [] => some acc
  | c :: rest =>
      if c = '_' then
        match rest with
        | [] => none
        | c2 :: rest2 =>
            if c2.isDigit then pyDigitsAux (acc * 10 + (c2.toNat - 48)) rest2 else none
      else if c.isDigit then pyDigitsAux (acc * 10 + (c.toNat - 48)) rest else none

/-- The digit part of a Python base-10 int literal: one digit, then
digits optionally separated by single underscores. -/
def pyParseDigits : List Char → Option Nat
  | [] => none
  | c :: rest => if c.isDigit then pyDigitsAux (c.toNat - 48) rest else none

/-- Python int(s) for base 10: strip surrounding whitespace, then an
optional single + or - sign followed by the digit part.  Note that
int() accepts negative literals. -/
def pyInt (s : String) : Option Int :=
  match pyStripList s.toList with
  | [] => none
  | c :: rest =>
      if c = '+' then (pyParseDigits rest).map (fun n => (n : Int))
      else if c = '-' then (pyParseDigits rest).map (fun n => -(n : Int))
      else (pyParseDigits (c :: rest)).map (fun n => (n : Int))

/-- src/papyra/address.py: ActorAddress(system, actor_id). -/
structure ActorAddress where
  system : String
  actor_id : Int
deriving DecidableEq, Repr

/-- Decimal digits of a natural number, most significant first. -/
def natChars (n : Nat) : List Char :=
  if n < 10 then [Char.ofNat (48 + n)]
  else natChars (n / 10) ++ [Char.ofNat (48 + n % 10)]
termination_by n
decreasing_by exact Nat.div_lt_self (by omega) (by omega)

/-- Decimal rendering of a Python int: Python str(int) prints a minus
sign followed by the digits of the absolute value. -/
def intChars (i : Int) : List Char :=
  if i < 0 then '-' :: natChars i.natAbs else natChars i.toNat

/-- ActorAddress.__str__: the f-string "{system}:{actor_id}". -/
def ActorAddress.str (a : ActorAddress) : String :=
  a.system ++ ":" ++ String.mk (intChars a.actor_id)

/-- raw.split(":", 1): split at the first colon; none when the string
contains no colon (the ":" not in raw guard of parse). -/
def splitFirstColon : List Char → Option (List Char × List Char)
  | [] => none
  | c :: rest =>
      if c = ':' then some ([], rest)
      else match splitFirstColon rest with
        | some (a, b) => some (c :: a, b)
        | none => none

/-- ActorAddress.parse: require a colon, split once, strip both parts,
require a non-empty system, and parse the id part with int().
ValueError is modelled as none. -/
def ActorAddress.parse (raw : String) : Option ActorAddress :=
  match splitFirstColon raw.toList with
  | none => none
  | some (sysPart, idPart) =>
      let system := pyStripList sysPart
      if system.isEmpty then none
      else match pyInt (String.mk (pyStripList idPart)) with
        | some i => some ⟨String.mk system, i⟩
        | none => none

/-- A system string survives the address round trip when it is
non-empty, contains no colon (parse splits at the first colon) and is
unchanged by str.strip. -/
def systemOk (s : String) : Bool :=
  (!s.toList.isEmpty) && s.toList.all (fun c => !(c = ':') && !isPySpace c)

/-!
## Embedding of src/papyra/mailbox.py

Mailbox.__post_init__ creates the anyio memory object stream with
buffer size given by the Python expression capacity or 0, so a None
capacity yields buffer size 0, not an unbounded buffer.  The buffer
semantics of anyio memory object streams: a send completes without
suspending iff a receiver is currently blocked in receive or fewer
than max_buffer_size items are buffered.
-/

/-- The Python expression (self.capacity or 0) passed to
anyio.create_memory_object_stream in Mailbox.__post_init__.  None is
falsy, giving 0; an integer evaluates to itself (0 is falsy but the
branch value is again 0). -/
def mailboxBufferSize : Option Int → Int
  | none => 0
  | some n => n

/-- Observable scheduling state of one anyio memory object stream. -/
structure StreamState where
  buffered : Nat
  waitingReceivers : Nat
deriving DecidableEq, Repr

/-- anyio memory object stream send: completes immediately iff a
receiver is waiting in receive or the buffer has room. -/
def sendCompletesImmediately (bufferSize : Int) (st : StreamState) : Bool :=
  decide (0 < st.waitingReceivers) || decide ((st.buffered : Int) < bufferSize)

/-- Mailbox.put: raises MailboxClosed (none) when the closed flag is
set, otherwise suspends exactly when the underlying send cannot
complete immediately.  some true means the call suspends. -/
def mailboxPutSuspends (closed : Bool) (bufferSize : Int) (st : StreamState) :
    Option Bool :=
  if closed then none else some (!sendCompletesImmediately bufferSize st)

/-!
## Embedding of src/papyra/persistence/rotating.py

The file system visible to RotatingFilePersistence is modelled as a
map from rotation index to the size in bytes of that file (index 0 is
the active file at path, index i >= 1 is path.i); none means the file
does not exist.  Appends only grow sizes, and rotation only deletes
and renames whole files, so sizes capture the behaviour the claim is
about.
-/

/-- One file system snapshot: rotation index to file size. -/
def FileSys : Type := Nat → Option Nat

/-- Rename src to dest when src exists (anyio Path.rename); the source
disappears and the destination is overwritten. -/
def renameIfExists (fs : FileSys) (src dest : Nat) : FileSys :=
  match fs src with
  | none => fs
  | some sz => fun j => if j = dest then some sz else if j = src then none else fs j

/-- The descending list [n, n-1, ..., 1] of range(n, 0, -1). -/
def descToOne : Nat → List Nat
  | 0 => []
  | n + 1 => (n + 1) :: descToOne n

/-- RotatingFilePersistence._maybe_rotate: no-op when the active file is
missing or the next line still fits; truncate in place when
max_files == 1; otherwise, when path.(max_files-1) already exists the
method returns without rotating (this is the early return at the
"oldest" check), else shift i to i+1 for i descending and rename the
active file to path.1. -/
def maybeRotate (maxBytes maxFiles : Nat) (fs : FileSys) (nextLineLen : Nat) : FileSys :=
  match fs 0 with
  | none => fs
  | some size =>
      if size + nextLineLen ≤ maxBytes then fs
      else if maxFiles = 1 then fun j => if j = 0 then some 0 else fs j
      else if (fs (maxFiles - 1)).isSome then fs
      else
        let shifted := (descToOne (maxFiles - 2)).foldl
          (fun s i => renameIfExists s i (i + 1)) fs
        renameIfExists shifted 0 1

/-- RotatingFilePersistence._append: serialize (the line length is the
input), maybe rotate, then open the active file in append mode
(creating it when missing) and write the line. -/
def rotatingAppend (maxBytes maxFiles : Nat) (closedFlag : Bool) (fs : FileSys)
    (lineLen : Nat) : FileSys :=
  if closedFlag then fs
  else
    let fs1 := maybeRotate maxBytes maxFiles fs lineLen
    fun j => if j = 0 then some ((fs1 0).getD 0 + lineLen) else fs1 j

/-!
## Embedding of src/papyra/persistence/redis.py record_event and the
persistence metrics
-/

/-- src/papyra/persistence/metrics.py: PersistenceMetrics counters. -/
structure PersistenceMetrics where
  records_written : Nat := 0
  bytes_written : Nat := 0
  scans : Nat := 0
  anomalies_detected : Nat := 0
  recoveries : Nat := 0
  compactions : Nat := 0
  write_errors : Nat := 0
  scan_errors : Nat := 0
  recovery_errors : Nat := 0
  compaction_errors : Nat := 0
deriving DecidableEq, Repr

/-- Modelled from the spec: the base-class helper _metrics_on_write_ok
called by RedisStreamsPersistence.record_event (the PersistenceBackend
base class carrying the metrics helpers is not under src/, only its
callers and persistence/metrics.py are).  Spec: metrics count
records_written and bytes_written for successful appends. -/
def metricsOnWriteOk (m : PersistenceMetrics) (records bytes : Nat) : PersistenceMetrics :=
  { m with records_written := m.records_written + records,
           bytes_written := m.bytes_written + bytes }

/-- Modelled from the spec: the base-class helper
_metrics_on_write_error called by record_event on append failure (base
class not under src/).  Spec: backend errors increment the appropriate
error counter; write failures count in write_errors. -/
def metricsOnWriteError (m : PersistenceMetrics) : PersistenceMetrics :=
  { m with write_errors := m.write_errors + 1 }

/-- RedisStreamsPersistence.record_event: return silently when closed;
otherwise perform the xadd append (its outcome is the xaddResult
argument: ok with the payload byte count, or error).  On success the
write metrics are bumped; on failure _metrics_on_write_error is called
and the exception is re-raised (the bare raise in the except block),
modelled as returning the error. -/
def recordEvent (closedFlag : Bool) (xaddResult : Except String Nat)
    (m : PersistenceMetrics) : Except String Unit × PersistenceMetrics :=
  if closedFlag then (Except.ok (), m)
  else
    match xaddResult with
    | Except.ok nbytes => (Except.ok (), metricsOnWriteOk m 1 nbytes)
    | Except.error e => (Except.error e, metricsOnWriteError m)

/-!
## Embedding of src/papyra/persistence/json.py compact

The NDJSON file is a list of lines; a line either parses as a JSON
object (carrying a timestamp and a fixed serialized byte size, the
two attributes retention inspects) or is blank/corrupt/non-object.
compact parses all valid rows, applies retention, rewrites the rows to
path.compact.tmp and atomically renames it over the original with
os.replace.
-/

/-- A persisted row as retention sees it: its timestamp and the length
in bytes of its JSON serialization (stable across rewrites, because
json.dumps of the parsed dict is deterministic). -/
structure PRow where
  timestamp : Rat
  size : Nat
deriving DecidableEq, Repr

/-- One line of the NDJSON store: a valid JSON object row, or a
blank/corrupted/non-object line that readers skip. -/
inductive NDLine
  | ok (r : PRow)
  | bad
deriving DecidableEq, Repr

/-- The valid rows of a file, in order (the read loop of compact:
strip, skip empties, json.loads, keep dicts). -/
def parseRows (file : List NDLine) : List PRow :=
  file.filterMap (fun l => match l with | NDLine.ok r => some r | NDLine.bad => none)

/-- src/papyra/persistence/retention.py RetentionPolicy (module not
under src/; fields from the spec: max_records, max_age_seconds,
max_total_bytes, each optional). -/
structure RetentionPolicy where
  maxRecords : Option Nat := none
  maxAgeSeconds : Option Rat := none
  maxTotalBytes : Option Nat := none
deriving DecidableEq, Repr

/-- The newest n records: everything but the first (length - n). -/
def takeLast (n : Nat) (l : List PRow) : List PRow :=
  l.drop (l.length - n)

/-- Total serialized size of a row list. -/
def totalSize (l : List PRow) : Nat :=
  (l.map PRow.size).sum

/-- The longest suffix (newest records) whose total size fits the
byte budget. -/
def suffixWithin (b : Nat) : List PRow → List PRow
  | [] => []
  | r :: t => if totalSize (r :: t) ≤ b then r :: t else suffixWithin b t

/-- Modelled from the spec: apply_retention from
papyra/persistence/_retention.py, which is not under src/ (only its
importers are).  Spec: retention bounds what remains by record count,
age and total bytes; records are newest-last.  Age keeps rows whose
age now - t is at most max_age_seconds, count keeps the newest
max_records, bytes keeps the newest rows fitting max_total_bytes. -/
def applyRetention (now : Rat) (p : RetentionPolicy) (rows : List PRow) : List PRow :=
  let r1 := match p.maxAgeSeconds with
    | none => rows
    | some age => rows.filter (fun r => decide (now - r.timestamp ≤ age))
  let r2 := match p.maxRecords with
    | none => r1
    | some n => takeLast n r1
  match p.maxTotalBytes with
  | none => r2
  | some b => suffixWithin b r2

/-- JsonFilePersistence.compact, content level: parse all valid rows,
apply retention, and rewrite one serialized row per line (the rewrite
via the temporary file replaces the whole content). -/
def compactContent (now : Rat) (p : RetentionPolicy) (file : List NDLine) : List NDLine :=
  (applyRetention now p (parseRows file)).map NDLine.ok

/-- JsonFilePersistence.compact including the atomic os.replace step:
when the rewrite of path.compact.tmp and the rename succeed the store
holds the compacted content; when any step fails the exception
propagates before os.replace and the store is unchanged. -/
def compactRun (writeOk : Bool) (now : Rat) (p : RetentionPolicy)
    (file : List NDLine) : List NDLine :=
  if writeOk then compactContent now p file else file

/-!
## Embedding of ActorRef.tell and the dead-letter sink

src/papyra/ref.py in the tree is a stale revision of the module: it
lacks the DeadLetter dataclass and the _dead_letter/_address fields
that papyra/__init__.py, ActorSystem.spawn and the test suite all
require of the current ActorRef.  The current ref.py is therefore
missing from src/ and the dead-letter routing of tell is modelled from
the spec; the liveness predicate itself is taken from
ActorSystem.spawn (not self._closed and rt.alive and not rt.stopping),
which is under src/.
-/

/-- The liveness predicate captured by ActorSystem.spawn into the
reference: the lambda (not self._closed) and rt.alive and
(not rt.stopping). -/
def refIsAlive (closedFlag alive stopping : Bool) : Bool :=
  !closedFlag && alive && !stopping

/-- Modelled from the spec: the DeadLetter record of the current
ref.py (missing from src/): target address, message, expects_reply
flag and timestamp. -/
structure DeadLetterRec (α : Type) where
  target : ActorAddress
  message : α
  expects_reply : Bool
  when : Rat
deriving DecidableEq, Repr

/-- Outcome of one tell call: whether ActorStopped was raised, the
dead letters pushed during the call, and the envelope enqueued into
the mailbox, if any (tell envelopes carry no reply channel). -/
structure TellOutcome (α : Type) where
  raisesActorStopped : Bool
  deadLetters : List (DeadLetterRec α)
  enqueued : Option α
deriving DecidableEq, Repr

/-- Modelled from the spec: ActorRef.tell (current ref.py missing from
src/).  Spec 4.2: if not alive at call time, route to dead letters
with expects_reply false and fail with ActorStopped; otherwise enqueue
Envelope(msg, none); if the enqueue fails, fail with ActorStopped. -/
def refTell {α : Type} (aliveNow enqueueOk : Bool) (addr : ActorAddress) (msg : α)
    (now : Rat) : TellOutcome α :=
  if !aliveNow then
    { raisesActorStopped := true,
      deadLetters := [⟨addr, msg, false, now⟩],
      enqueued := none }
  else if enqueueOk then
    { raisesActorStopped := false, deadLetters := [], enqueued := some msg }
  else
    { raisesActorStopped := true, deadLetters := [], enqueued := none }

/-!
## Embedding of the restart budget
(ActorSystem._check_restart_limits and ActorSystem._restart_actor)

Clock instants are rationals; anyio.current_time is monotonic, so the
check time of an attempt is at most its append time, and the append
time of one attempt is at most the check time of the next.
_check_restart_limits is called with the check time;
rt.restart_timestamps.append(anyio.current_time()) happens later in
_restart_actor, with the append time.
-/

/-- ActorSystem._check_restart_limits: drop timestamps outside the
window (keep t with now - t <= within_seconds, assigning the filtered
list back to rt.restart_timestamps) and allow the restart iff fewer
than max_restarts remain. -/
def checkRestartLimits (maxRestarts : Nat) (withinSeconds now : Rat)
    (ts : List Rat) : List Rat × Bool :=
  let kept := ts.filter (fun t => decide (now - t ≤ withinSeconds))
  (kept, decide (kept.length < maxRestarts))

/-- The runtime fields ActorSystem._restart_actor touches. -/
structure RestartRt where
  alive : Bool
  stopping : Bool
  restarting : Bool
  mailboxClosed : Bool
  instanceGen : Nat
  timestamps : List Rat
deriving DecidableEq, Repr

/-- ActorSystem._restart_actor on its runtime record (tCheck is the
clock at _check_restart_limits, tAppend the clock at the later
restart_timestamps.append): on an exhausted budget mark not-alive and
stopping, close the mailbox, clear restarting and create no new
instance; otherwise run the old instance's on_stop (swallowed), append
the attempt time, build a fresh instance from the factory
(instanceGen increments), clear stopping, and clear restarting
(onStartOk tells whether the new instance's on_start succeeded; when
it fails the loop ends up not alive). -/
def restartActorRt (maxRestarts : Nat) (withinSeconds tCheck tAppend : Rat)
    (onStartOk : Bool) (rt : RestartRt) : RestartRt :=
  let p := checkRestartLimits maxRestarts withinSeconds tCheck rt.timestamps
  if !p.2 then
    { rt with alive := false, stopping := true, mailboxClosed := true,
              restarting := false, timestamps := p.1 }
  else
    let rt1 := { rt with timestamps := p.1 ++ [tAppend],
                         instanceGen := rt.instanceGen + 1,
                         stopping := false, restarting := false }
    if onStartOk then rt1 else { rt1 with alive := false }

/-- One supervision restart attempt in a run: its check time and its
append time. -/
structure Attempt where
  tCheck : Rat
  tAppend : Rat
deriving DecidableEq, Repr

/-- Budget state carried between attempts: the recorded timestamps and
whether the actor was permanently stopped by budget exhaustion (after
which _handle_failure returns early and no further restart runs). -/
structure BudgetState where
  timestamps : List Rat
  stopped : Bool
deriving DecidableEq, Repr

/-- One restart attempt at the budget level: a stopped actor never
restarts again; otherwise the limit check filters the recorded
timestamps, a passing check appends the attempt time (a successful
restart), a failing check stops the actor permanently. -/
def budgetStep (maxRestarts : Nat) (withinSeconds : Rat) (st : BudgetState)
    (a : Attempt) : BudgetState × Bool :=
  if st.stopped then (st, false)
  else
    let p := checkRestartLimits maxRestarts withinSeconds a.tCheck st.timestamps
    if p.2 then ({ timestamps := p.1 ++ [a.tAppend], stopped := false }, true)
    else ({ timestamps := p.1, stopped := true }, false)

/-- The append times of the successful restarts of a run. -/
def successTimes (maxRestarts : Nat) (withinSeconds : Rat) (st : BudgetState) :
    List Attempt → List Rat
  | [] => []
  | a :: rest =>
      let r := budgetStep maxRestarts withinSeconds st a
      if r.2 then a.tAppend :: successTimes maxRestarts withinSeconds r.1 rest
      else successTimes maxRestarts withinSeconds r.1 rest

/-- Attempts happen in clock order: each check precedes its append,
and each append precedes the next check; lb bounds the first check. -/
def attemptsOrdered (lb : Rat) : List Attempt → Prop
  | [] => True
  | a :: rest => lb ≤ a.tCheck ∧ a.tCheck ≤ a.tAppend ∧ attemptsOrdered a.tAppend rest

/-- Number of recorded instants at or after T. -/
def countGe (T : Rat) (l : List Rat) : Nat :=
  l.countP (fun s => decide (T ≤ s))

/-- Membership test for the closed window [T, T + W]. -/
def inWindow (T W : Rat) (t : Rat) : Bool :=
  decide (T ≤ t) && decide (t ≤ T + W)

/-!
## Embedding of src/papyra/system.py: runtime records, cascading stop,
watcher notification, supervision and the registry

The system state carries the _ActorRuntime records keyed by rid, the
name registry and the closed flag.  Mailboxes are the queued message
list plus the closed flag (a put on an open mailbox appends - the
capacity-full case suspends rather than fails in these code paths - and
a put on a closed mailbox raises MailboxClosed, modelled as none).
User code invoked by the engine is modelled by oracles: hooks gives
the decision a parent's on_child_failure returns for a failing child
(none for no decision or a raising hook), startOk tells whether a
fresh instance's on_start succeeds, and on_stop outcomes are swallowed
by the source so they need no oracle.  anyio.current_time is passed in
as the tc/ta instants (check and append times).  The recursion of
_stop_runtime and _handle_failure is driven by a fuel argument; every
reported behaviour is reached with fuel to spare.
-/

/-- src/papyra/supervision.py Strategy. -/
inductive Strategy
  | stop
  | restart
  | escalate
deriving DecidableEq, Repr

/-- src/papyra/supervisor.py SupervisorDecision. -/
inductive SupervisorDecision
  | restart
  | stop
  | escalate
  | ignore
deriving DecidableEq, Repr

/-- Messages an engine-touched mailbox can hold: the STOP sentinel, an
ActorTerminated(ref) system message carrying the source rid, or an
opaque user message. -/
inductive MsgK
  | stop
  | actorTerminated (src : Nat)
  | user (n : Nat)
deriving DecidableEq, Repr

/-- The _ActorRuntime record (system.py), restricted to the fields the
engine reads or writes; instanceGen counts actor_factory() calls (the
current user instance). -/
structure RtState where
  alive : Bool := true
  stopping : Bool := false
  restarting : Bool := false
  parent : Option Nat := none
  children : List Nat := []
  watchers : List Nat := []
  name : Option String := none
  strategy : Strategy := Strategy.stop
  maxRestarts : Nat := 3
  withinSeconds : Rat := 60
  restartTimestamps : List Rat := []
  mailbox : List MsgK := []
  mailboxClosed : Bool := false
  instanceGen : Nat := 0
deriving DecidableEq, Repr

/-- ActorSystem state: closed flag, system id, the rid-keyed runtime
records (_by_id; entries are never removed by the source), the name
registry and the next rid. -/
structure SysState where
  closed : Bool := false
  systemId : String := "local"
  actors : List (Nat × RtState) := []
  registry : List (String × ActorAddress) := []
  nextId : Nat := 1
deriving DecidableEq, Repr

/-- Association-list lookup for the _by_id map. -/
def lookupRt : List (Nat × RtState) → Nat → Option RtState
  | [], _ => none
  | p :: rest, rid => if p.1 = rid then some p.2 else lookupRt rest rid

/-- Replace the record of rid (in-place mutation of the runtime
object); a missing rid is a no-op. -/
def updateRt : List (Nat × RtState) → Nat → RtState → List (Nat × RtState)
  | [], _, _ => []
  | p :: rest, rid, rt => if p.1 = rid then (rid, rt) :: rest else p :: updateRt rest rid rt

def getRt (s : SysState) (rid : Nat) : Option RtState :=
  lookupRt s.actors rid

def setRt (s : SysState) (rid : Nat) (rt : RtState) : SysState :=
  { s with actors := updateRt s.actors rid rt }

/-- Python dict get on the registry. -/
def regGet : List (String × ActorAddress) → String → Option ActorAddress
  | [], _ => none
  | p :: rest, nm => if p.1 = nm then some p.2 else regGet rest nm

/-- Python dict assignment self._registry[name] = address. -/
def regSet : List (String × ActorAddress) → String → ActorAddress →
    List (String × ActorAddress)
  | [], nm, a => [(nm, a)]
  | p :: rest, nm, a => if p.1 = nm then (nm, a) :: rest else p :: regSet rest nm a

/-- Python dict pop self._registry.pop(name, None). -/
def regPop : List (String × ActorAddress) → String → List (String × ActorAddress)
  | [], _ => []
  | p :: rest, nm => if p.1 = nm then rest else p :: regPop rest nm

/-- Mailbox.put as the engine calls it: fails (MailboxClosed) on a
closed mailbox, otherwise appends. -/
def mbPut (rt : RtState) (m : MsgK) : Option RtState :=
  if rt.mailboxClosed then none else some { rt with mailbox := rt.mailbox ++ [m] }

/-- One iteration of the watcher notification loop: skip a missing or
dead watcher, enqueue ActorTerminated(self_ref) into its mailbox, and
ignore a put failure (except Exception: pass). -/
def notifyOne (s : SysState) (src w : Nat) : SysState :=
  match getRt s w with
  | none => s
  | some wrt =>
      if !wrt.alive then s
      else
        match mbPut wrt (MsgK.actorTerminated src) with
        | none => s
        | some wrt2 => setRt s w wrt2

/-- The watcher notification loop shared by _stop_runtime (lines
477-484) and the _run_actor finally path (lines 611-623). -/
def notifyWatchers (s : SysState) (src : Nat) (ws : List Nat) : SysState :=
  ws.foldl (fun s w => notifyOne s src w) s

/-- ActorSystem._stop_runtime: skip already-seen rids, stop children
first (a snapshot of rt.children), return if not alive or already
stopping, set stopping, notify every watcher, then enqueue STOP; if
that put fails, force alive := false. -/
def stopRuntime : Nat → SysState → Nat → List Nat → SysState × List Nat
  | 0, s, _, seen => (s, seen)
  | fuel + 1, s, rid, seen =>
      if rid ∈ seen then (s, seen)
      else
        let seen2 := rid :: seen
        match getRt s rid with
        | none => (s, seen2)
        | some rt =>
            let r := rt.children.foldl
              (fun (acc : SysState × List Nat) c => stopRuntime fuel acc.1 c acc.2)
              (s, seen2)
            match getRt r.1 rid with
            | none => r
            | some rt2 =>
                if !rt2.alive || rt2.stopping then r
                else
                  let s1 := setRt r.1 rid { rt2 with stopping := true }
                  let s2 := notifyWatchers s1 rid rt2.watchers
                  match getRt s2 rid with
                  | none => (s2, r.2)
                  | some rt3 =>
                      match mbPut rt3 MsgK.stop with
                      | some rt4 => (setRt s2 rid rt4, r.2)
                      | none => (setRt s2 rid { rt3 with alive := false }, r.2)

/-- The failing-actor helper used by _handle_failure and the escalate
paths: rt.alive = False on the current record. -/
def markNotAlive (s : SysState) (rid : Nat) : SysState :=
  match getRt s rid with
  | none => s
  | some rt => setRt s rid { rt with alive := false }

/-- The final rt.restarting = False of _restart_actor on the current
runtime record. -/
def clearRestarting (s : SysState) (rid : Nat) : SysState :=
  match getRt s rid with
  | none => s
  | some rt => setRt s rid { rt with restarting := false }

/-- mailbox.aclose() on the current runtime record. -/
def closeMb (s : SysState) (rid : Nat) : SysState :=
  match getRt s rid with
  | none => s
  | some rt => setRt s rid { rt with mailboxClosed := true }

/-- The finally block of ActorSystem._run_actor (lines 593-626): mark
not alive; pop the name from the registry only when stopping and not
restarting (permanent stop); notify every watcher exactly as
_stop_runtime does; run on_stop swallowing errors; close the
mailbox. -/
def runActorFinally (s : SysState) (rid : Nat) : SysState :=
  match getRt s rid with
  | none => s
  | some rt =>
      let s1 := setRt s rid { rt with alive := false }
      let s2 :=
        match rt.name with
        | some nm =>
            if rt.stopping && !rt.restarting then
              { s1 with registry := regPop s1.registry nm }
            else s1
        | none => s1
      closeMb (notifyWatchers s2 rid rt.watchers) rid

mutual

/-- ActorSystem._handle_failure: an already-stopping runtime is only
marked not alive; else, when a parent exists its on_child_failure hook
is consulted (hooks rid, none meaning no decision or raising hook) and
an explicit decision is applied; otherwise the runtime's own policy
strategy runs: ESCALATE recurses into the parent (when present) and
then marks the child not alive, STOP cascade-stops, RESTART
restarts. -/
def handleFailure : Nat → (Nat → Option SupervisorDecision) → Rat → Rat →
    (Nat → Bool) → SysState → Nat → SysState
  | 0, _, _, _, _, s, _ => s
  | fuel + 1, hooks, tc, ta, startOk, s, rid =>
      match getRt s rid with
      | none => s
      | some rt =>
          if rt.stopping then setRt s rid { rt with alive := false }
          else
            match rt.parent, hooks rid with
            | some _, some d => applyDecision fuel hooks tc ta startOk s rid d
            | _, _ =>
                match rt.strategy with
                | Strategy.escalate =>
                    match rt.parent with
                    | none => setRt s rid { rt with alive := false }
                    | some p =>
                        markNotAlive (handleFailure fuel hooks tc ta startOk s p) rid
                | Strategy.stop => (stopRuntime fuel s rid []).1
                | Strategy.restart => restartActorS fuel hooks tc ta startOk s rid

/-- ActorSystem._apply_supervisor_decision: IGNORE and STOP
cascade-stop the child; RESTART restarts it; ESCALATE recurses into
the parent's failure handling with the same error and then
cascade-stops the child (or cascade-stops directly when no parent). -/
def applyDecision : Nat → (Nat → Option SupervisorDecision) → Rat → Rat →
    (Nat → Bool) → SysState → Nat → SupervisorDecision → SysState
  | 0, _, _, _, _, s, _, _ => s
  | fuel + 1, hooks, tc, ta, startOk, s, rid, d =>
      match d with
      | SupervisorDecision.ignore => (stopRuntime fuel s rid []).1
      | SupervisorDecision.stop => (stopRuntime fuel s rid []).1
      | SupervisorDecision.restart => restartActorS fuel hooks tc ta startOk s rid
      | SupervisorDecision.escalate =>
          match getRt s rid with
          | none => (stopRuntime fuel s rid []).1
          | some rt =>
              match rt.parent with
              | none => (stopRuntime fuel s rid []).1
              | some p =>
                  (stopRuntime fuel (handleFailure fuel hooks tc ta startOk s p) rid []).1

/-- ActorSystem._restart_actor at the system level: set restarting,
check the budget (timestamps are filtered in place); on exhaustion
mark not alive and stopping, close the mailbox, clear restarting; else
run on_stop (swallowed), record the append-time timestamp, build a new
instance (instanceGen increments, the registry binding written twice
in the source is modelled once), clear stopping, rebind the name to
the unchanged address, run on_start (a failure feeds back into
_handle_failure), and clear restarting. -/
def restartActorS : Nat → (Nat → Option SupervisorDecision) → Rat → Rat →
    (Nat → Bool) → SysState → Nat → SysState
  | 0, _, _, _, _, s, _ => s
  | fuel + 1, hooks, tc, ta, startOk, s, rid =>
      match getRt s rid with
      | none => s
      | some rt =>
          let rt0 := { rt with restarting := true }
          let p := checkRestartLimits rt0.maxRestarts rt0.withinSeconds tc
            rt0.restartTimestamps
          if !p.2 then
            setRt s rid { rt0 with alive := false, stopping := true,
                                   mailboxClosed := true, restarting := false,
                                   restartTimestamps := p.1 }
          else
            let rt1 := { rt0 with restartTimestamps := p.1 ++ [ta],
                                  instanceGen := rt0.instanceGen + 1,
                                  stopping := false }
            let s1 := setRt s rid rt1
            let s2 :=
              match rt1.name with
              | some nm =>
                  { s1 with registry := regSet s1.registry nm ⟨s1.systemId, (rid : Int)⟩ }
              | none => s1
            let s3 := if startOk rid then s2
              else handleFailure fuel hooks tc ta startOk s2 rid
            clearRestarting s3 rid

end

/-- The state and rid a successful spawn produces: allocate the next
rid, create the runtime record (alive, not stopping, not restarting,
fresh instance), link it into the parent's children, and bind the name
to the new address. -/
def spawnState (s : SysState) (strategy : Strategy) (maxR : Nat) (W : Rat)
    (parent : Option Nat) (name : Option String) : SysState × Nat :=
  let rid := s.nextId
  let rt : RtState :=
    { alive := true, stopping := false, restarting := false, parent := parent,
      children := [], watchers := [], name := name, strategy := strategy,
      maxRestarts := maxR, withinSeconds := W, restartTimestamps := [],
      mailbox := [], mailboxClosed := false, instanceGen := 1 }
  let actors1 :=
    match parent with
    | none => s.actors
    | some prid =>
        match lookupRt s.actors prid with
        | none => s.actors
        | some prt => updateRt s.actors prid { prt with children := prt.children ++ [rid] }
  let registry1 :=
    match name with
    | some nm => regSet s.registry nm ⟨s.systemId, (rid : Int)⟩
    | none => s.registry
  ({ s with actors := actors1 ++ [(rid, rt)], registry := registry1,
            nextId := s.nextId + 1 }, rid)

/-- ActorSystem.spawn, restricted to the fields of this model: refuse
when the system is closed or the name is taken, else build the new
state. -/
def spawnA (s : SysState) (strategy : Strategy) (maxR : Nat) (W : Rat)
    (parent : Option Nat) (name : Option String) : Except String (SysState × Nat) :=
  if s.closed then Except.error "ActorSystem is not running."
  else if (match name with
    | some nm => (regGet s.registry nm).isSome
    | none => false) then Except.error "Actor name already exists."
  else Except.ok (spawnState s strategy maxR W parent name)

/-!
## Concrete system states for the C1, C6 and C7 scenarios
-/

/-- Target actor of the watch scenario (rid 1): alive, watched by
rid 2 - the setup of tests/test_watch.py. -/
def c1Target : RtState := { watchers := [2] }

/-- Watcher actor (rid 2): alive with an empty mailbox. -/
def c1Watcher : RtState := {}

/-- System of the watch scenario. -/
def c1State : SysState := { actors := [(1, c1Target), (2, c1Watcher)], nextId := 3 }

/-- A root actor with policy strategy ESCALATE (rid 1) that has one
child (rid 2). -/
def c6Escalator : RtState := { strategy := Strategy.escalate, children := [2] }

/-- The child (rid 2) of the escalating actor: alive, empty mailbox. -/
def c6Child : RtState := { parent := some 1 }

/-- System of the policy-ESCALATE scenario. -/
def c6State : SysState := { actors := [(1, c6Escalator), (2, c6Child)], nextId := 3 }

/-- A named root actor with policy strategy ESCALATE (rid 1). -/
def c7Named : RtState := { name := some "worker", strategy := Strategy.escalate }

/-- System of the registry scenario: the name is bound at spawn. -/
def c7State : SysState :=
  { actors := [(1, c7Named)], registry := [("worker", ⟨"local", 1⟩)], nextId := 2 }

/-- A decimal digit character is a digit, is not whitespace, and is none
of the characters parse treats specially. -/
def goodDigit (c : Char) : Prop :=
  c.isDigit = true ∧ isPySpace c = false ∧ c ≠ ':' ∧ c ≠ '+' ∧ c ≠ '-' ∧ c ≠ '_'

/-- Value of a digit string under the left fold used by pyDigitsAux. -/
def digitsVal (acc : Nat) (l : List Char) : Nat :=
  l.foldl (fun a c => a * 10 + (c.toNat - 48)) acc

/-- Input exhibiting the rotation bug: active file of 8 bytes, path.1
of 9 bytes, and the oldest slot path.2 occupied with 7 bytes. -/
def fsOldestExists : FileSys := fun i =>
  if i = 0 then some 8 else if i = 1 then some 9 else if i = 2 then some 7 else none

/-- Same sizes but with the oldest slot path.2 free. -/
def fsOldestFree : FileSys := fun i =>
  if i = 0 then some 8 else if i = 1 then some 9 else none

/-!
## Supporting lemmas: decimal digits and Python string helpers
-/

lemma goodDigit_ofNat : ∀ d : Nat, d < 10 → goodDigit (Char.ofNat (48 + d)) := by
  simp only [goodDigit]
  decide

lemma toNat_ofNat_digit : ∀ d : Nat, d < 10 → (Char.ofNat (48 + d)).toNat - 48 = d := by
  decide

lemma digitsVal_nil (acc : Nat) : digitsVal acc [] = acc := rfl

lemma digitsVal_cons (acc : Nat) (c : Char) (l : List Char) :
    digitsVal acc (c :: l) = digitsVal (acc * 10 + (c.toNat - 48)) l := rfl

lemma digitsVal_append (acc : Nat) (l₁ l₂ : List Char) :
    digitsVal acc (l₁ ++ l₂) = digitsVal (digitsVal acc l₁) l₂ := by
  simp [digitsVal, List.foldl_append]

lemma pyDigitsAux_of_digits (l : List Char) :
    ∀ acc, (∀ c ∈ l, c.isDigit = true) → pyDigitsAux acc l = some (digitsVal acc l) := by
  induction l with
  | nil => intro acc _; rfl
  | cons c rest ih =>
      intro acc h
      have hc : c.isDigit = true := h c (by simp)
      have hne : c ≠ '_' := by
        intro hcu; rw [hcu] at hc; exact absurd hc (by decide)
      rw [pyDigitsAux.eq_def]
      dsimp only
      rw [if_neg hne, if_pos hc, digitsVal_cons]
      exact ih _ (fun x hx => h x (by simp [hx]))

lemma pyParseDigits_of_digits (c : Char) (rest : List Char)
    (h : ∀ x ∈ c :: rest, x.isDigit = true) :
    pyParseDigits (c :: rest) = some (digitsVal 0 (c :: rest)) := by
  have hc : c.isDigit = true := h c (by simp)
  rw [pyParseDigits, if_pos hc, digitsVal_cons]
  have : (0 : Nat) * 10 + (c.toNat - 48) = c.toNat - 48 := by omega
  rw [this]
  exact pyDigitsAux_of_digits rest _ (fun x hx => h x (by simp [hx]))

lemma natChars_ne_nil (n : Nat) : natChars n ≠ [] := by
  rw [natChars]
  split
  · simp
  · simp

lemma natChars_good (n : Nat) : ∀ c ∈ natChars n, goodDigit c := by
  induction n using Nat.strong_induction_on with
  | _ n ih =>
      intro c hc
      rw [natChars] at hc
      split at hc
      · simp at hc
        subst hc
        exact goodDigit_ofNat n (by omega)
      · rename_i hge
        rcases List.mem_append.mp hc with h1 | h2
        · exact ih (n / 10) (Nat.div_lt_self (by omega) (by omega)) c h1
        · simp at h2
          subst h2
          exact goodDigit_ofNat (n % 10) (Nat.mod_lt _ (by omega))

lemma digitsVal_natChars (n : Nat) :
    ∀ acc, digitsVal acc (natChars n) = acc * 10 ^ (natChars n).length + n := by
  induction n using Nat.strong_induction_on with
  | _ n ih =>
      intro acc
      rw [natChars]
      split
      · rename_i hlt
        have hd := toNat_ofNat_digit n hlt
        simp [digitsVal_cons, digitsVal_nil, hd]
      · rename_i hge
        have hq : n / 10 < n := Nat.div_lt_self (by omega) (by omega)
        have hd := toNat_ofNat_digit (n % 10) (Nat.mod_lt _ (by omega))
        rw [digitsVal_append, ih (n / 10) hq acc, digitsVal_cons, digitsVal_nil, hd]
        have hmod := Nat.div_add_mod n 10
        simp [List.length_append, pow_succ]
        ring_nf
        omega

lemma dropWhile_eq_self_of_none (p : Char → Bool) (l : List Char)
    (h : ∀ c ∈ l, p c = false) : l.dropWhile p = l := by
  cases l with
  | nil => rfl
  | cons c rest => simp [List.dropWhile_cons, h c (by simp)]

lemma pyStripList_eq_self (l : List Char) (h : ∀ c ∈ l, isPySpace c = false) :
    pyStripList l = l := by
  unfold pyStripList
  rw [dropWhile_eq_self_of_none _ _ h,
    dropWhile_eq_self_of_none _ _ (fun c hc => h c (List.mem_reverse.mp hc)),
    List.reverse_reverse]

lemma splitFirstColon_append (sys rest : List Char) (h : ∀ c ∈ sys, c ≠ ':') :
    splitFirstColon (sys ++ ':' :: rest) = some (sys, rest) := by
  induction sys with
  | nil => simp [splitFirstColon]
  | cons c t ih =>
      have hc : c ≠ ':' := h c (by simp)
      rw [List.cons_append, splitFirstColon, if_neg hc,
        ih (fun x hx => h x (by simp [hx]))]

lemma pyInt_cons (s : String) (c : Char) (rest : List Char)
    (h : pyStripList s.toList = c :: rest) :
    pyInt s =
      if c = '+' then (pyParseDigits rest).map (fun n => (n : Int))
      else if c = '-' then (pyParseDigits rest).map (fun n => -(n : Int))
      else (pyParseDigits (c :: rest)).map (fun n => (n : Int)) := by
  rw [pyInt, h]

lemma pyInt_natChars_nonneg (i : Int) (hi : 0 ≤ i) :
    pyInt (String.mk (natChars i.toNat)) = some i := by
  obtain ⟨c, rest, hcr⟩ := List.exists_cons_of_ne_nil (natChars_ne_nil i.toNat)
  have hgood : ∀ x ∈ natChars i.toNat, goodDigit x := natChars_good i.toNat
  have hstrip : pyStripList (natChars i.toNat) = natChars i.toNat :=
    pyStripList_eq_self _ (fun x hx => (hgood x hx).2.1)
  have hcg : goodDigit c := hgood c (by rw [hcr]; simp)
  have hparse : pyParseDigits (c :: rest) = some (digitsVal 0 (c :: rest)) := by
    refine pyParseDigits_of_digits c rest (fun x hx => ?_)
    exact (hgood x (by rw [hcr]; exact hx)).1
  have hval : digitsVal 0 (natChars i.toNat) = i.toNat := by
    rw [digitsVal_natChars]; omega
  rw [pyInt_cons (String.mk (natChars i.toNat)) c rest (by rw [← hcr]; exact hstrip)]
  rw [if_neg hcg.2.2.2.1, if_neg hcg.2.2.2.2.1, hparse]
  rw [hcr] at hval
  rw [hval]
  simp [Int.toNat_of_nonneg hi]

lemma pyInt_intChars (i : Int) : pyInt (String.mk (intChars i)) = some i := by
  by_cases hneg : i < 0
  · rw [intChars, if_pos hneg]
    obtain ⟨c, rest, hcr⟩ := List.exists_cons_of_ne_nil (natChars_ne_nil i.natAbs)
    have hgood : ∀ x ∈ natChars i.natAbs, goodDigit x := natChars_good i.natAbs
    have hstrip : pyStripList ('-' :: natChars i.natAbs) = '-' :: natChars i.natAbs := by
      refine pyStripList_eq_self _ (fun x hx => ?_)
      rcases List.mem_cons.mp hx with h1 | h2
      · rw [h1]; decide
      · exact (hgood x h2).2.1
    have hparse : pyParseDigits (c :: rest) = some (digitsVal 0 (c :: rest)) := by
      refine pyParseDigits_of_digits c rest (fun x hx => ?_)
      exact (hgood x (by rw [hcr]; exact hx)).1
    have hval : digitsVal 0 (natChars i.natAbs) = i.natAbs := by
      rw [digitsVal_natChars]; omega
    rw [pyInt_cons (String.mk ('-' :: natChars i.natAbs)) '-' (natChars i.natAbs) hstrip]
    rw [if_neg (by decide : ¬('-' : Char) = '+'), if_pos rfl, hcr, hparse]
    rw [hcr] at hval
    rw [hval]
    show some (-(i.natAbs : Int)) = some i
    exact congrArg some (by omega)
  · rw [intChars, if_neg hneg]
    exact pyInt_natChars_nonneg i (by omega)

lemma intChars_not_space (i : Int) : ∀ c ∈ intChars i, isPySpace c = false := by
  intro c hc
  rw [intChars] at hc
  split at hc
  · rcases List.mem_cons.mp hc with h1 | h2
    · rw [h1]; decide
    · exact (natChars_good _ c h2).2.1
  · exact (natChars_good _ c hc).2.1

/-!
## Claim theorems C9 and C10
-/

/-- C9 (counterexample): the claim fails as stated.  Round-trip: the
address with system "a:b" and id 1 prints as "a:b:1", which parse
splits at the first colon, so the round trip does not return the
address (parse yields none because "b:1" is not an int literal).
Acceptance: parse accepts "local:-1", whose id part is not an unsigned
integer, instead of raising ValueError. -/
theorem address_roundtrip_counterexample :
    ActorAddress.parse (ActorAddress.str ⟨"a:b", 1⟩) = none ∧
      ActorAddress.parse "local:-1" = some ⟨"local", -1⟩ := by
  have hstr : ActorAddress.str ⟨"a:b", 1⟩ = "a:b:1" := by
    rw [ActorAddress.str, intChars, if_neg (by decide), natChars]
    rfl
  exact ⟨by rw [hstr]; rfl, rfl⟩

/-- C9 (amended): for every address whose system string is non-empty and
free of colons and whitespace, ActorAddress.parse inverts
ActorAddress.str exactly; and parse accepts signed id parts such as
"local:-1" (Python int() parses negative literals), rather than only
unsigned ones. -/
theorem address_roundtrip_amended :
    (∀ a : ActorAddress, systemOk a.system = true →
        ActorAddress.parse (ActorAddress.str a) = some a) ∧
      ActorAddress.parse "local:-1" = some ⟨"local", -1⟩ := by
  constructor
  · intro a h
    rw [systemOk, Bool.and_eq_true] at h
    obtain ⟨hne, hall⟩ := h
    rw [List.all_eq_true] at hall
    have hnc : ∀ c ∈ a.system.toList, c ≠ ':' := by
      intro c hc
      have := hall c hc
      rw [Bool.and_eq_true] at this
      simpa using this.1
    have hns : ∀ c ∈ a.system.toList, isPySpace c = false := by
      intro c hc
      have := hall c hc
      rw [Bool.and_eq_true] at this
      simpa using this.2
    have htl : (ActorAddress.str a).toList =
        a.system.toList ++ ':' :: intChars a.actor_id := by
      show ((a.system ++ ":") ++ String.mk (intChars a.actor_id)).data =
        a.system.data ++ ':' :: intChars a.actor_id
      rw [String.data_append, String.data_append, List.append_assoc]
      rfl
    rw [ActorAddress.parse, htl, splitFirstColon_append _ _ hnc]
    dsimp only
    rw [pyStripList_eq_self _ hns]
    have hemp : a.system.toList.isEmpty = false := by
      simpa using hne
    rw [hemp]
    simp only [Bool.false_eq_true, if_false]
    rw [pyStripList_eq_self _ (intChars_not_space a.actor_id), pyInt_intChars]
    show some ⟨String.mk a.system.data, a.actor_id⟩ = some a
    rfl
  · rfl

/-- C9 witness: the amended round trip evaluated at the concrete address
local:7. -/
theorem address_roundtrip_amended_witness :
    ActorAddress.parse (ActorAddress.str ⟨"local", 7⟩) = some ⟨"local", 7⟩ :=
  address_roundtrip_amended.1 ⟨"local", 7⟩ (by decide)

/-- C10: a Mailbox built with capacity None gets an anyio stream with
buffer size 0 (not unbounded): a put on it with no consumer waiting in
get() suspends, while it completes immediately when a consumer is
waiting; a positive capacity N yields a buffer of exactly N. -/
theorem mailbox_capacity_none_zero_buffer :
    mailboxBufferSize none = 0 ∧
      (∀ n : Int, 0 < n → mailboxBufferSize (some n) = n) ∧
      (∀ st : StreamState, st.waitingReceivers = 0 →
        mailboxPutSuspends false (mailboxBufferSize none) st = some true) ∧
      (∀ st : StreamState, 0 < st.waitingReceivers →
        mailboxPutSuspends false (mailboxBufferSize none) st = some false) := by
  refine ⟨rfl, fun n _ => rfl, ?_, ?_⟩
  · intro st h
    simp [mailboxPutSuspends, sendCompletesImmediately, mailboxBufferSize, h]
  · intro st h
    simp [mailboxPutSuspends, sendCompletesImmediately, mailboxBufferSize, h]

/-!
## Claim theorems C4 and C5
-/

/-- C4 (code evaluated at the failing input): with max_bytes 10 and
max_files 3, appending a 5-byte line to an 8-byte active file must
rotate; but because path.2 (the oldest rotated file) exists,
_maybe_rotate returns early instead of deleting it, so the active file
grows to 13 bytes (beyond max_bytes) and nothing is shifted - contradicting
the claim and the class docstring ("The oldest file (if it exists) is
deleted").  When the oldest slot is free the very same append does
rotate as documented (active renamed to .1, .1 shifted to .2, fresh
active holding only the new line), and with max_files 1 the active
file is truncated in place. -/
theorem rotating_skips_rotation_when_oldest_exists :
    (rotatingAppend 10 3 false fsOldestExists 5) 0 = some 13 ∧
      (rotatingAppend 10 3 false fsOldestExists 5) 1 = some 9 ∧
      (rotatingAppend 10 3 false fsOldestExists 5) 2 = some 7 ∧
      (rotatingAppend 10 3 false fsOldestFree 5) 0 = some 5 ∧
      (rotatingAppend 10 3 false fsOldestFree 5) 1 = some 8 ∧
      (rotatingAppend 10 3 false fsOldestFree 5) 2 = some 9 ∧
      (rotatingAppend 10 1 false fsOldestExists 5) 0 = some 5 := by
  refine ⟨rfl, rfl, rfl, rfl, rfl, rfl, rfl⟩

/-- C5 (counterexample): record_event does not return normally to the
caller when the underlying append fails - the except block of
RedisStreamsPersistence.record_event counts the failure and then
re-raises it with a bare raise.  Evaluated at a concrete failing
append, the call result is the propagated error, not a normal
return. -/
theorem record_event_raises_counterexample :
    (recordEvent false (Except.error "io failure") {}).1 =
        Except.error "io failure" ∧
      (recordEvent false (Except.error "io failure") {}).2.write_errors = 1 := by
  exact ⟨rfl, rfl⟩

/-- C5 (amended): when the underlying append of record_event fails the
failure is counted in metrics (write_errors increments by one) and the
exception is re-raised to the caller rather than swallowed; on a
successful append the write metrics are bumped and the call returns
normally; after close the call returns normally without touching
metrics. -/
theorem record_event_amended :
    (∀ (m : PersistenceMetrics) (e : String),
        recordEvent false (Except.error e) m =
          (Except.error e, metricsOnWriteError m) ∧
        (metricsOnWriteError m).write_errors = m.write_errors + 1) ∧
      (∀ (m : PersistenceMetrics) (n : Nat),
        recordEvent false (Except.ok n) m = (Except.ok (), metricsOnWriteOk m 1 n)) ∧
      (∀ (m : PersistenceMetrics) (r : Except String Nat),
        recordEvent true r m = (Except.ok (), m)) :=
  ⟨fun _ _ => ⟨rfl, rfl⟩, fun _ _ => rfl, fun _ _ => rfl⟩

/-!
## Retention and compaction lemmas (C8)
-/

lemma parseRows_map_ok (rows : List PRow) : parseRows (rows.map NDLine.ok) = rows := by
  rw [parseRows, List.filterMap_map]
  have h : ((fun l => match l with | NDLine.ok r => some r | NDLine.bad => none) ∘
      NDLine.ok) = some := rfl
  rw [h, List.filterMap_some]

lemma suffixWithin_sublist (b : Nat) (l : List PRow) : (suffixWithin b l).Sublist l := by
  induction l with
  | nil => simp [suffixWithin]
  | cons r t ih =>
      rw [suffixWithin]
      split
      · exact List.Sublist.refl _
      · exact ih.trans (List.sublist_cons_self r t)

lemma totalSize_suffixWithin_le (b : Nat) (l : List PRow) :
    totalSize (suffixWithin b l) ≤ b := by
  induction l with
  | nil => simp [suffixWithin, totalSize]
  | cons r t ih =>
      rw [suffixWithin]
      split
      · assumption
      · exact ih

lemma suffixWithin_eq_self {b : Nat} {l : List PRow} (h : totalSize l ≤ b) :
    suffixWithin b l = l := by
  cases l with
  | nil => rfl
  | cons r t => rw [suffixWithin, if_pos h]

lemma totalSize_le_of_sublist {l₁ l₂ : List PRow} (h : l₁.Sublist l₂) :
    totalSize l₁ ≤ totalSize l₂ := by
  unfold totalSize
  induction h with
  | slnil => exact le_rfl
  | cons r _ ih => simp only [List.map_cons, List.sum_cons]; omega
  | cons₂ r _ ih => simp only [List.map_cons, List.sum_cons]; omega

lemma takeLast_sublist (n : Nat) (l : List PRow) : (takeLast n l).Sublist l :=
  List.drop_sublist _ _

lemma takeLast_length_le (n : Nat) (l : List PRow) : (takeLast n l).length ≤ n := by
  simp only [takeLast, List.length_drop]
  omega

lemma takeLast_eq_self {n : Nat} {l : List PRow} (h : l.length ≤ n) :
    takeLast n l = l := by
  simp only [takeLast]
  rw [Nat.sub_eq_zero_of_le h, List.drop_zero]

lemma applyRetention_sublist (now : Rat) (p : RetentionPolicy) (rows : List PRow) :
    (applyRetention now p rows).Sublist rows := by
  rw [applyRetention]
  have h1 : ∀ (o : Option Rat) (l : List PRow), (match o with
      | none => l
      | some age => l.filter (fun r => decide (now - r.timestamp ≤ age))).Sublist l := by
    intro o l
    cases o with
    | none => exact List.Sublist.refl _
    | some age => exact List.filter_sublist _
  have h2 : ∀ (o : Option Nat) (l : List PRow), (match o with
      | none => l
      | some n => takeLast n l).Sublist l := by
    intro o l
    cases o with
    | none => exact List.Sublist.refl _
    | some n => exact takeLast_sublist _ _
  have h3 : ∀ (o : Option Nat) (l : List PRow), (match o with
      | none => l
      | some b => suffixWithin b l).Sublist l := by
    intro o l
    cases o with
    | none => exact List.Sublist.refl _
    | some b => exact suffixWithin_sublist _ _
  exact ((h3 p.maxTotalBytes _).trans (h2 p.maxRecords _)).trans (h1 p.maxAgeSeconds _)

lemma filter_eq_self_of_sub {pred : PRow → Bool} {l l0 : List PRow}
    (hsub : l.Sublist (l0.filter pred)) : l.filter pred = l := by
  refine List.filter_eq_self.mpr ?_
  intro x hx
  exact List.of_mem_filter (hsub.subset hx)

lemma applyRetention_idem (now : Rat) (p : RetentionPolicy) (rows : List PRow) :
    applyRetention now p (applyRetention now p rows) = applyRetention now p rows := by
  rcases p with ⟨orec, oage, obytes⟩
  rcases oage with _ | age <;> rcases orec with _ | n <;> rcases obytes with _ | b <;>
    simp only [applyRetention]
  · -- bytes only
    exact suffixWithin_eq_self (totalSize_suffixWithin_le _ _)
  · -- records only
    exact takeLast_eq_self (takeLast_length_le _ _)
  · -- records then bytes
    rw [takeLast_eq_self ((suffixWithin_sublist _ _).length_le.trans (takeLast_length_le _ _))]
    exact suffixWithin_eq_self (totalSize_suffixWithin_le _ _)
  · -- age only
    exact filter_eq_self_of_sub (List.Sublist.refl _)
  · -- age then bytes
    rw [filter_eq_self_of_sub (suffixWithin_sublist _ _)]
    exact suffixWithin_eq_self (totalSize_suffixWithin_le _ _)
  · -- age then records
    rw [filter_eq_self_of_sub (takeLast_sublist _ _)]
    exact takeLast_eq_self (takeLast_length_le _ _)
  · -- age, records, bytes
    rw [filter_eq_self_of_sub ((suffixWithin_sublist _ _).trans (takeLast_sublist _ _))]
    rw [takeLast_eq_self ((suffixWithin_sublist _ _).length_le.trans (takeLast_length_le _ _))]
    exact suffixWithin_eq_self (totalSize_suffixWithin_le _ _)

/-- C8: compact is idempotent on the stored content - compacting an
already compacted store rewrites exactly the same lines - and each run
is atomic: when the rewrite and rename succeed the store holds the
compacted content, and when any step fails before os.replace the store
is unchanged. -/
theorem compact_idempotent_and_atomic :
    (∀ (now : Rat) (p : RetentionPolicy) (file : List NDLine),
        compactContent now p (compactContent now p file) = compactContent now p file) ∧
      (∀ (now : Rat) (p : RetentionPolicy) (file : List NDLine),
        compactRun true now p file = compactContent now p file ∧
          compactRun false now p file = file) := by
  constructor
  · intro now p file
    rw [compactContent, compactContent, parseRows_map_ok, applyRetention_idem]
  · intro now p file
    exact ⟨rfl, rfl⟩

/-!
## Restart budget lemmas (C3)
-/

lemma attemptsOrdered_cons (lb : Rat) (a : Attempt) (rest : List Attempt) :
    attemptsOrdered lb (a :: rest) ↔
      lb ≤ a.tCheck ∧ a.tCheck ≤ a.tAppend ∧ attemptsOrdered a.tAppend rest :=
  Iff.rfl

lemma budgetStep_stopped (maxR : Nat) (W : Rat) (ts : List Rat) (a : Attempt) :
    budgetStep maxR W ⟨ts, true⟩ a = (⟨ts, true⟩, false) := rfl

lemma budgetStep_running {st : BudgetState} (hst : st.stopped = false) (maxR : Nat)
    (W : Rat) (a : Attempt) :
    budgetStep maxR W st a =
      (if (checkRestartLimits maxR W a.tCheck st.timestamps).2 then
        ({ timestamps := (checkRestartLimits maxR W a.tCheck st.timestamps).1 ++ [a.tAppend],
           stopped := false }, true)
      else
        ({ timestamps := (checkRestartLimits maxR W a.tCheck st.timestamps).1,
           stopped := true }, false)) := by
  unfold budgetStep
  rw [hst]
  simp

lemma successTimes_cons (maxR : Nat) (W : Rat) (st : BudgetState) (a : Attempt)
    (rest : List Attempt) :
    successTimes maxR W st (a :: rest) =
      (if (budgetStep maxR W st a).2 then
        a.tAppend :: successTimes maxR W (budgetStep maxR W st a).1 rest
      else successTimes maxR W (budgetStep maxR W st a).1 rest) := rfl

lemma successTimes_step_true {maxR : Nat} {W : Rat} {st st2 : BudgetState} {a : Attempt}
    (h : budgetStep maxR W st a = (st2, true)) (rest : List Attempt) :
    successTimes maxR W st (a :: rest) = a.tAppend :: successTimes maxR W st2 rest := by
  rw [successTimes_cons, h]
  rfl

lemma successTimes_step_false {maxR : Nat} {W : Rat} {st st2 : BudgetState} {a : Attempt}
    (h : budgetStep maxR W st a = (st2, false)) (rest : List Attempt) :
    successTimes maxR W st (a :: rest) = successTimes maxR W st2 rest := by
  rw [successTimes_cons, h]
  rfl

lemma successTimes_stopped (maxR : Nat) (W : Rat) (ts : List Rat) :
    ∀ trace, successTimes maxR W ⟨ts, true⟩ trace = [] := by
  intro trace
  induction trace with
  | nil => rfl
  | cons a rest ih =>
      rw [successTimes_cons, budgetStep_stopped]
      simpa using ih

lemma successTimes_lb (maxR : Nat) (W : Rat) :
    ∀ (trace : List Attempt) (lb : Rat) (st : BudgetState), attemptsOrdered lb trace →
      ∀ t ∈ successTimes maxR W st trace, lb ≤ t := by
  intro trace
  induction trace with
  | nil => intro lb st _ t ht; simp [successTimes] at ht
  | cons a rest ih =>
      intro lb st hord t ht
      rw [attemptsOrdered_cons] at hord
      obtain ⟨h1, h2, h3⟩ := hord
      rw [successTimes_cons] at ht
      by_cases hs : (budgetStep maxR W st a).2 = true
      · rw [if_pos hs] at ht
        rcases List.mem_cons.mp ht with heq | hmem
        · rw [heq]; exact h1.trans h2
        · exact (h1.trans h2).trans (ih a.tAppend _ h3 t hmem)
      · rw [if_neg hs] at ht
        exact (h1.trans h2).trans (ih a.tAppend _ h3 t ht)

lemma countGe_append_singleton (T : Rat) (l : List Rat) (x : Rat) :
    countGe T (l ++ [x]) = countGe T l + (if T ≤ x then 1 else 0) := by
  unfold countGe
  rw [List.countP_append]
  congr 1
  by_cases h : T ≤ x <;> simp [h]

lemma countGe_le_length (T : Rat) (l : List Rat) : countGe T l ≤ l.length :=
  List.countP_le_length _

/-- While the check time stays at or before T + W, the window filter of
_check_restart_limits never drops an entry at or after T. -/
lemma countGe_kept (maxR : Nat) (W tc T : Rat) (ts : List Rat) (h : tc ≤ T + W) :
    countGe T (checkRestartLimits maxR W tc ts).1 = countGe T ts := by
  unfold countGe checkRestartLimits
  rw [List.countP_filter]
  refine List.countP_congr ?_
  intro s _
  by_cases hTs : T ≤ s
  · have : tc - s ≤ W := by linarith
    simp [hTs, this]
  · simp [hTs]

/-- Key invariant for the restart window bound: the successful restarts
whose append time falls in [T, T + W], plus the recorded timestamps at
or after T, never exceed max_restarts (once the recorded count is
below it). -/
lemma budget_window_aux (maxR : Nat) (W T : Rat) :
    ∀ (trace : List Attempt) (lb : Rat) (st : BudgetState),
      attemptsOrdered lb trace →
        (successTimes maxR W st trace).countP (inWindow T W) + countGe T st.timestamps ≤
          max maxR (countGe T st.timestamps) := by
  intro trace
  induction trace with
  | nil =>
      intro lb st _
      simp only [successTimes, List.countP_nil, Nat.zero_add]
      exact le_max_right _ _
  | cons a rest ih =>
      intro lb st hord
      rw [attemptsOrdered_cons] at hord
      obtain ⟨h1, h2, h3⟩ := hord
      by_cases hstop : st.stopped = true
      · have hst : st = ⟨st.timestamps, true⟩ := by
          cases st with
          | mk ts s => simp at hstop; rw [hstop]
        rw [hst, successTimes_stopped]
        simp
      · have hstop' : st.stopped = false := by
          cases hb : st.stopped
          · rfl
          · exact absurd hb hstop
        have hbs := budgetStep_running hstop' maxR W a
        by_cases htc : a.tCheck ≤ T + W
        · -- the check happens inside or before the window end
          have hcg : countGe T (checkRestartLimits maxR W a.tCheck st.timestamps).1 =
              countGe T st.timestamps := countGe_kept maxR W a.tCheck T st.timestamps htc
          by_cases hok : (checkRestartLimits maxR W a.tCheck st.timestamps).2 = true
          · -- successful restart
            have hlt : ((checkRestartLimits maxR W a.tCheck st.timestamps).1).length <
                maxR := of_decide_eq_true hok
            have hcnt : countGe T st.timestamps < maxR := by
              calc countGe T st.timestamps
                  = countGe T (checkRestartLimits maxR W a.tCheck st.timestamps).1 :=
                    hcg.symm
                _ ≤ ((checkRestartLimits maxR W a.tCheck st.timestamps).1).length :=
                    countGe_le_length _ _
                _ < maxR := hlt
            have hsel : budgetStep maxR W st a =
                (⟨(checkRestartLimits maxR W a.tCheck st.timestamps).1 ++ [a.tAppend],
                  false⟩, true) := by
              rw [hbs, if_pos hok]
            rw [successTimes_step_true hsel, List.countP_cons]
            have hih := ih a.tAppend
              ⟨(checkRestartLimits maxR W a.tCheck st.timestamps).1 ++ [a.tAppend], false⟩ h3
            simp only at hih
            rw [countGe_append_singleton, hcg] at hih
            by_cases hTa : T ≤ a.tAppend
            · rw [if_pos hTa] at hih
              have hmax : max maxR (countGe T st.timestamps + 1) = maxR :=
                max_eq_left (by omega)
              rw [hmax] at hih
              by_cases hWa : a.tAppend ≤ T + W
              · have hwin : inWindow T W a.tAppend = true := by
                  simp [inWindow, hTa, hWa]
                rw [hwin, if_pos rfl]
                omega
              · have hwin : inWindow T W a.tAppend = false := by
                  simp [inWindow, hWa]
                rw [hwin, if_neg Bool.false_ne_true]
                omega
            · rw [if_neg hTa] at hih
              have hwin : inWindow T W a.tAppend = false := by
                have h0 : ¬ T ≤ a.tAppend := hTa
                simp [inWindow, h0]
              rw [hwin, if_neg Bool.false_ne_true]
              omega
          · -- budget exhausted here: permanent stop, no later successes
            have hok' : (checkRestartLimits maxR W a.tCheck st.timestamps).2 = false := by
              cases hb : (checkRestartLimits maxR W a.tCheck st.timestamps).2
              · rfl
              · exact absurd hb hok
            have hsel : budgetStep maxR W st a =
                (⟨(checkRestartLimits maxR W a.tCheck st.timestamps).1, true⟩, false) := by
              rw [hbs, if_neg (by rw [hok']; exact Bool.false_ne_true)]
            rw [successTimes_step_false hsel, successTimes_stopped]
            simp
        · -- the check is already past the window: no success can land in it
          have hall : ∀ t ∈ successTimes maxR W st (a :: rest), a.tCheck ≤ t := by
            refine successTimes_lb maxR W (a :: rest) a.tCheck st ?_
            rw [attemptsOrdered_cons]
            exact ⟨le_refl _, h2, h3⟩
          have hzero : (successTimes maxR W st (a :: rest)).countP (inWindow T W) = 0 := by
            rw [List.countP_eq_zero]
            intro t ht
            have hlarge : T + W < t := lt_of_lt_of_le (lt_of_not_ge htc) (hall t ht)
            simp [inWindow]
            intro _
            linarith
          rw [hzero]
          simp

/-- C3: the restart procedure keeps exactly the recorded timestamps
with age at most within_seconds (dropping the older ones); when at
least max_restarts remain the actor is permanently stopped - stopping
set, alive cleared, mailbox closed, restarting cleared and no new
instance built; otherwise the attempt time is appended, a fresh
instance is built and stopping is cleared; consequently, over any run
of restart attempts in clock order, any window [T, T + within_seconds]
contains at most max_restarts successful restarts. -/
theorem restart_budget_enforced :
    (∀ (maxR : Nat) (W now : Rat) (ts : List Rat) (s : Rat),
        s ∈ (checkRestartLimits maxR W now ts).1 ↔ s ∈ ts ∧ now - s ≤ W) ∧
      (∀ (maxR : Nat) (W tCheck tAppend : Rat) (onStartOk : Bool) (rt : RestartRt),
        maxR ≤ ((checkRestartLimits maxR W tCheck rt.timestamps).1).length →
          restartActorRt maxR W tCheck tAppend onStartOk rt =
            { rt with alive := false, stopping := true, mailboxClosed := true,
                      restarting := false,
                      timestamps := (checkRestartLimits maxR W tCheck rt.timestamps).1 }) ∧
      (∀ (maxR : Nat) (W tCheck tAppend : Rat) (onStartOk : Bool) (rt : RestartRt),
        ((checkRestartLimits maxR W tCheck rt.timestamps).1).length < maxR →
          (restartActorRt maxR W tCheck tAppend onStartOk rt).timestamps =
              (checkRestartLimits maxR W tCheck rt.timestamps).1 ++ [tAppend] ∧
            (restartActorRt maxR W tCheck tAppend onStartOk rt).instanceGen =
              rt.instanceGen + 1 ∧
            (restartActorRt maxR W tCheck tAppend onStartOk rt).stopping = false) ∧
      (∀ (maxR : Nat) (W T lb : Rat) (trace : List Attempt),
        attemptsOrdered lb trace →
          (successTimes maxR W ⟨[], false⟩ trace).countP (inWindow T W) ≤ maxR) := by
  refine ⟨?_, ?_, ?_, ?_⟩
  · intro maxR W now ts s
    unfold checkRestartLimits
    simp [List.mem_filter]
  · intro maxR W tCheck tAppend onStartOk rt h
    have h' : ¬ (((checkRestartLimits maxR W tCheck rt.timestamps).1).length < maxR) := by
      omega
    have hdec : (checkRestartLimits maxR W tCheck rt.timestamps).2 = false :=
      decide_eq_false h'
    unfold restartActorRt
    dsimp only
    rw [hdec]
    rfl
  · intro maxR W tCheck tAppend onStartOk rt h
    have hdec : (checkRestartLimits maxR W tCheck rt.timestamps).2 = true :=
      decide_eq_true h
    unfold restartActorRt
    dsimp only
    rw [hdec]
    cases onStartOk <;> exact ⟨rfl, rfl, rfl⟩
  · intro maxR W T lb trace h
    have haux := budget_window_aux maxR W T trace lb ⟨[], false⟩ h
    simpa [countGe] using haux

/-- C3 witness: budget exhaustion evaluated at max_restarts 1,
within_seconds 10, one recorded restart at instant 5 and a new attempt
checked at instant 6; and the window bound evaluated on a concrete
three-attempt run. -/
theorem restart_budget_enforced_witness :
    (1 ≤ ((checkRestartLimits 1 10 6 [5]).1).length ∧
        restartActorRt 1 10 6 6 true ⟨true, false, false, false, 0, [5]⟩ =
          ⟨false, true, false, true, 0, [5]⟩) ∧
      (attemptsOrdered 0 [⟨0, 0⟩, ⟨1, 1⟩, ⟨2, 2⟩] ∧
        (successTimes 1 10 ⟨[], false⟩ [⟨0, 0⟩, ⟨1, 1⟩, ⟨2, 2⟩]).countP (inWindow 0 10) ≤ 1) := by
  have hkept : (checkRestartLimits 1 10 6 [5]).1 = [5] := by
    unfold checkRestartLimits
    norm_num [List.filter]
  have hlen : 1 ≤ ((checkRestartLimits 1 10 6 [5]).1).length := by
    rw [hkept]
    norm_num
  have hord : attemptsOrdered (0 : Rat) [⟨0, 0⟩, ⟨1, 1⟩, ⟨2, 2⟩] := by
    norm_num [attemptsOrdered]
  constructor
  · refine ⟨hlen, ?_⟩
    have h := restart_budget_enforced.2.1 1 10 6 6 true
      ⟨true, false, false, false, 0, [5]⟩ hlen
    rw [h, hkept]
  · exact ⟨hord, restart_budget_enforced.2.2.2 1 10 0 0 [⟨0, 0⟩, ⟨1, 1⟩, ⟨2, 2⟩] hord⟩

/-!
## Claim theorem C2
-/

/-- C2: a tell whose liveness predicate (captured at spawn:
not closed and alive and not stopping) reports not-alive raises
ActorStopped and pushes exactly one dead letter with
expects_reply = false; a tell against an alive reference whose mailbox
enqueue fails raises ActorStopped (and routes nothing new to dead
letters). -/
theorem tell_dead_letter_exactly_once {α : Type} :
    (∀ (closedFlag alive stopping : Bool) (enqueueOk : Bool) (addr : ActorAddress)
        (msg : α) (now : Rat),
      refIsAlive closedFlag alive stopping = false →
        refTell (refIsAlive closedFlag alive stopping) enqueueOk addr msg now =
          { raisesActorStopped := true,
            deadLetters := [⟨addr, msg, false, now⟩],
            enqueued := none }) ∧
      (∀ (addr : ActorAddress) (msg : α) (now : Rat),
        refTell true false addr msg now =
          { raisesActorStopped := true, deadLetters := [], enqueued := none }) := by
  constructor
  · intro closedFlag alive stopping enqueueOk addr msg now h
    rw [refTell, h]
    rfl
  · intro addr msg now
    rfl

/-- C2 witness: tell evaluated on a stopped runtime (alive but
stopping, so the liveness predicate is false) and on a failing
enqueue. -/
theorem tell_dead_letter_exactly_once_witness :
    refIsAlive false true true = false ∧
      refTell (α := Nat) (refIsAlive false true true) true ⟨"local", 1⟩ 42 3 =
        { raisesActorStopped := true,
          deadLetters := [⟨⟨"local", 1⟩, 42, false, 3⟩],
          enqueued := none } :=
  ⟨by decide,
    tell_dead_letter_exactly_once.1 false true true true ⟨"local", 1⟩ 42 3 (by decide)⟩

/-- C10 witness: buffer size and blocking behaviour evaluated at
concrete stream states. -/
theorem mailbox_capacity_none_zero_buffer_witness :
    mailboxBufferSize (some 5) = 5 ∧
      mailboxPutSuspends false (mailboxBufferSize none) ⟨0, 0⟩ = some true ∧
      mailboxPutSuspends false (mailboxBufferSize none) ⟨0, 1⟩ = some false :=
  ⟨mailbox_capacity_none_zero_buffer.2.1 5 (by decide),
    mailbox_capacity_none_zero_buffer.2.2.1 ⟨0, 0⟩ rfl,
    mailbox_capacity_none_zero_buffer.2.2.2 ⟨0, 1⟩ (by decide)⟩

/-!
## System state lemmas (C1, C6, C7)
-/

lemma setRt_registry (s : SysState) (rid : Nat) (rt : RtState) :
    (setRt s rid rt).registry = s.registry := rfl

lemma notifyOne_registry (s : SysState) (src w : Nat) :
    (notifyOne s src w).registry = s.registry := by
  unfold notifyOne
  cases hg : getRt s w with
  | none => rfl
  | some wrt =>
      dsimp only
      by_cases ha : (!wrt.alive) = true
      · rw [if_pos ha]
      · rw [if_neg ha]
        cases hm : mbPut wrt (MsgK.actorTerminated src) with
        | none => rfl
        | some wrt2 => rfl

lemma notifyWatchers_cons (s : SysState) (src w : Nat) (ws : List Nat) :
    notifyWatchers s src (w :: ws) = notifyWatchers (notifyOne s src w) src ws := rfl

lemma notifyWatchers_registry (src : Nat) (ws : List Nat) :
    ∀ s : SysState, (notifyWatchers s src ws).registry = s.registry := by
  induction ws with
  | nil => intro s; rfl
  | cons w rest ih =>
      intro s
      rw [notifyWatchers_cons, ih, notifyOne_registry]

lemma closeMb_registry (s : SysState) (rid : Nat) :
    (closeMb s rid).registry = s.registry := by
  unfold closeMb
  cases hg : getRt s rid with
  | none => rfl
  | some rt => rfl

lemma runActorFinally_registry (s : SysState) (rid : Nat) (rt : RtState)
    (hget : getRt s rid = some rt) :
    (runActorFinally s rid).registry =
      (match rt.name with
       | some nm =>
           if rt.stopping && !rt.restarting then regPop s.registry nm else s.registry
       | none => s.registry) := by
  unfold runActorFinally
  rw [hget]
  dsimp only
  rw [closeMb_registry, notifyWatchers_registry]
  cases hname : rt.name with
  | none => rfl
  | some nm =>
      dsimp only
      by_cases hcond : (rt.stopping && !rt.restarting) = true
      · rw [if_pos hcond, if_pos hcond]
        rfl
      · rw [if_neg hcond, if_neg hcond]
        rfl

lemma regGet_regSet_self (reg : List (String × ActorAddress)) (nm : String)
    (a : ActorAddress) : regGet (regSet reg nm a) nm = some a := by
  induction reg with
  | nil => simp [regSet, regGet]
  | cons p rest ih =>
      by_cases h : p.1 = nm
      · simp [regSet, if_pos h, regGet]
      · simp only [regSet, if_neg h, regGet, if_neg h]
        exact ih

lemma lookupRt_updateRt_self (rid : Nat) (rt : RtState) :
    ∀ l : List (Nat × RtState), (lookupRt l rid).isSome →
      lookupRt (updateRt l rid rt) rid = some rt := by
  intro l
  induction l with
  | nil => intro h; simp [lookupRt] at h
  | cons p rest ih =>
      intro h
      by_cases hp : p.1 = rid
      · simp [updateRt, if_pos hp, lookupRt]
      · simp only [updateRt, if_neg hp, lookupRt]
        refine ih ?_
        simpa only [lookupRt, if_neg hp] using h

lemma lookupRt_append_right (l : List (Nat × RtState)) (rid : Nat) (rt : RtState)
    (h : lookupRt l rid = none) : lookupRt (l ++ [(rid, rt)]) rid = some rt := by
  induction l with
  | nil => simp [lookupRt]
  | cons p rest ih =>
      by_cases hp : p.1 = rid
      · rw [lookupRt, if_pos hp] at h
        exact absurd h (by simp)
      · rw [lookupRt, if_neg hp] at h
        rw [List.cons_append, lookupRt, if_neg hp]
        exact ih h

lemma lookupRt_updateRt_none (l : List (Nat × RtState)) (k : Nat) (v : RtState)
    (rid : Nat) (h : lookupRt l rid = none) :
    lookupRt (updateRt l k v) rid = none := by
  induction l with
  | nil => rfl
  | cons p rest ih =>
      by_cases hpk : p.1 = k
      · rw [updateRt, if_pos hpk, lookupRt]
        rw [lookupRt] at h
        by_cases hkr : k = rid
        · rw [← hpk] at hkr
          rw [if_pos hkr] at h
          exact absurd h (by simp)
        · rw [if_neg hkr]
          rw [if_neg (by rw [hpk]; exact hkr)] at h
          exact h
      · rw [updateRt, if_neg hpk, lookupRt]
        rw [lookupRt] at h
        by_cases hpr : p.1 = rid
        · rw [if_pos hpr] at h
          exact absurd h (by simp)
        · rw [if_neg hpr] at h
          rw [if_neg hpr]
          exact ih h

lemma clearRestarting_registry (s : SysState) (rid : Nat) :
    (clearRestarting s rid).registry = s.registry := by
  unfold clearRestarting
  cases hg : getRt s rid with
  | none => rfl
  | some rt => rfl

lemma getRt_setRt_self (s : SysState) (rid : Nat) (rt0 rt1 : RtState)
    (h : getRt s rid = some rt0) : getRt (setRt s rid rt1) rid = some rt1 := by
  unfold getRt setRt at *
  exact lookupRt_updateRt_self rid rt1 s.actors (by rw [h]; rfl)

/-!
## Claim theorems C1, C6 and C7
-/

/-- C1 (code evaluated at the failing input, the scenario of
tests/test_watch.py): when a graceful stop goes through _stop_runtime
(stopping set, watchers notified, STOP enqueued) and the loop then
exits into the finally path (which notifies watchers again), the
watcher's mailbox ends up with two ActorTerminated envelopes for one
termination; each individual path alone enqueues exactly one.  The
repo's own test asserts exactly one, so the claim is right and the
code double-emits. -/
theorem watcher_double_notification :
    ((getRt (runActorFinally ((stopRuntime 2 c1State 1 []).1) 1) 2).map
        (fun rt => rt.mailbox.count (MsgK.actorTerminated 1)) = some 2) ∧
      ((getRt ((stopRuntime 2 c1State 1 []).1) 2).map
        (fun rt => rt.mailbox.count (MsgK.actorTerminated 1)) = some 1) ∧
      ((getRt (runActorFinally c1State 1) 2).map
        (fun rt => rt.mailbox.count (MsgK.actorTerminated 1)) = some 1) := by
  refine ⟨?_, ?_, ?_⟩ <;> rfl

/-- C6 (counterexample): a root actor with policy strategy ESCALATE
and one child fails; the claim says the actor is cascade-stopped (its
child stopped too, a STOP envelope enqueued), but _handle_failure only
sets rt.alive = False: afterwards the failing actor is not stopping
and has an empty mailbox, and its child is still alive and untouched. -/
theorem escalate_no_cascade_counterexample :
    ((getRt (handleFailure 3 (fun _ => none) 0 0 (fun _ => true) c6State 1) 1).map
        RtState.alive = some false) ∧
      ((getRt (handleFailure 3 (fun _ => none) 0 0 (fun _ => true) c6State 1) 1).map
        RtState.stopping = some false) ∧
      ((getRt (handleFailure 3 (fun _ => none) 0 0 (fun _ => true) c6State 1) 1).map
        RtState.mailbox = some []) ∧
      ((getRt (handleFailure 3 (fun _ => none) 0 0 (fun _ => true) c6State 1) 2).map
        RtState.alive = some true) ∧
      ((getRt (handleFailure 3 (fun _ => none) 0 0 (fun _ => true) c6State 1) 2).map
        RtState.stopping = some false) ∧
      ((getRt (handleFailure 3 (fun _ => none) 0 0 (fun _ => true) c6State 1) 2).map
        RtState.mailbox = some []) := by
  refine ⟨?_, ?_, ?_, ?_, ?_, ?_⟩ <;> rfl

/-- C6 (amended): a decision ESCALATE from the parent hook invokes the
parent's failure handling and then cascade-stops the child; the policy
strategy ESCALATE instead recurses into the parent (when one exists)
and afterwards only marks the child not alive - no cascade stop of the
child - and with no parent it only marks the child not alive. -/
theorem escalate_amended (fuel : Nat) (hooks : Nat → Option SupervisorDecision)
    (tc ta : Rat) (startOk : Nat → Bool) :
    (∀ (s : SysState) (rid : Nat) (rt : RtState),
        getRt s rid = some rt → rt.stopping = false →
        rt.strategy = Strategy.escalate → rt.parent = none →
          handleFailure (fuel + 1) hooks tc ta startOk s rid =
            setRt s rid { rt with alive := false }) ∧
      (∀ (s : SysState) (rid p : Nat) (rt : RtState),
        getRt s rid = some rt → rt.stopping = false → hooks rid = none →
        rt.strategy = Strategy.escalate → rt.parent = some p →
          handleFailure (fuel + 1) hooks tc ta startOk s rid =
            markNotAlive (handleFailure fuel hooks tc ta startOk s p) rid) ∧
      (∀ (s : SysState) (rid p : Nat) (rt : RtState),
        getRt s rid = some rt → rt.stopping = false →
        hooks rid = some SupervisorDecision.escalate → rt.parent = some p →
          handleFailure (fuel + 2) hooks tc ta startOk s rid =
            (stopRuntime fuel (handleFailure fuel hooks tc ta startOk s p) rid []).1) := by
  refine ⟨?_, ?_, ?_⟩
  · intro s rid rt hget hstop hstrat hpar
    simp only [handleFailure, hget, hstop, hpar, hstrat, Bool.false_eq_true, if_false]
  · intro s rid p rt hget hstop hhook hstrat hpar
    simp only [handleFailure, hget, hstop, hhook, hstrat, hpar, Bool.false_eq_true,
      if_false]
  · intro s rid p rt hget hstop hhook hpar
    show handleFailure (fuel + 1 + 1) hooks tc ta startOk s rid = _
    simp only [handleFailure, hget, hstop, hhook, hpar, applyDecision,
      Bool.false_eq_true, if_false]

/-- C6 witness: the policy-ESCALATE branches applied to the concrete
escalating root actor. -/
theorem escalate_amended_witness :
    getRt c6State 1 = some c6Escalator ∧
      handleFailure 1 (fun _ => none) 0 0 (fun _ => true) c6State 1 =
        setRt c6State 1 { c6Escalator with alive := false } :=
  ⟨rfl,
    (escalate_amended 0 (fun _ => none) 0 0 (fun _ => true)).1 c6State 1 c6Escalator
      rfl rfl rfl rfl⟩

/-- C7 (counterexample): a named actor whose policy strategy is
ESCALATE fails; _handle_failure only clears alive, the loop exits with
stopping = false, so the finally path does not pop the name: the
registry still maps the name although the actor is neither alive nor
restarting, refuting the claimed iff invariant. -/
theorem registry_invariant_counterexample :
    (regGet (runActorFinally
        (handleFailure 3 (fun _ => none) 0 0 (fun _ => true) c7State 1) 1).registry
        "worker" = some ⟨"local", 1⟩) ∧
      ((getRt (runActorFinally
        (handleFailure 3 (fun _ => none) 0 0 (fun _ => true) c7State 1) 1) 1).map
        RtState.alive = some false) ∧
      ((getRt (runActorFinally
        (handleFailure 3 (fun _ => none) 0 0 (fun _ => true) c7State 1) 1) 1).map
        RtState.restarting = some false) ∧
      ((getRt (runActorFinally
        (handleFailure 3 (fun _ => none) 0 0 (fun _ => true) c7State 1) 1) 1).map
        RtState.stopping = some false) := by
  refine ⟨?_, ?_, ?_, ?_⟩ <;> rfl

/-- C7 (amended): spawn binds a fresh name to the new actor's address
and leaves it alive and not restarting; the loop-exit finalizer
removes the name exactly when the runtime exits with stopping set and
restarting clear; and a successful restart rebinds the same name to
the same address.  The claimed iff itself fails for runtimes that die
without the stopping flag (see the counterexample). -/
theorem registry_invariant_amended :
    (∀ (s : SysState) (strategy : Strategy) (maxR : Nat) (W : Rat)
        (parent : Option Nat) (nm : String),
      s.closed = false → regGet s.registry nm = none →
      lookupRt s.actors s.nextId = none →
        spawnA s strategy maxR W parent (some nm) =
            Except.ok (spawnState s strategy maxR W parent (some nm)) ∧
          (spawnState s strategy maxR W parent (some nm)).2 = s.nextId ∧
          regGet (spawnState s strategy maxR W parent (some nm)).1.registry nm =
            some ⟨s.systemId, (s.nextId : Int)⟩ ∧
          (getRt (spawnState s strategy maxR W parent (some nm)).1 s.nextId).map
              RtState.alive = some true ∧
          (getRt (spawnState s strategy maxR W parent (some nm)).1 s.nextId).map
              RtState.restarting = some false) ∧
      (∀ (s : SysState) (rid : Nat) (rt : RtState),
        getRt s rid = some rt →
          (runActorFinally s rid).registry =
            (match rt.name with
             | some nm =>
                 if rt.stopping && !rt.restarting then regPop s.registry nm
                 else s.registry
             | none => s.registry)) ∧
      (∀ (fuel : Nat) (hooks : Nat → Option SupervisorDecision) (tc ta : Rat)
        (startOk : Nat → Bool) (s : SysState) (rid : Nat) (rt : RtState) (nm : String),
        getRt s rid = some rt → rt.name = some nm → startOk rid = true →
        ((checkRestartLimits rt.maxRestarts rt.withinSeconds tc
            rt.restartTimestamps).1).length < rt.maxRestarts →
          regGet (restartActorS (fuel + 1) hooks tc ta startOk s rid).registry nm =
            some ⟨s.systemId, (rid : Int)⟩) := by
  refine ⟨?_, ?_, ?_⟩
  · intro s strategy maxR W parent nm hclosed hfree hfresh
    have hok : spawnA s strategy maxR W parent (some nm) =
        Except.ok (spawnState s strategy maxR W parent (some nm)) := by
      simp [spawnA, hclosed, hfree]
    have hget : getRt (spawnState s strategy maxR W parent (some nm)).1 s.nextId =
        some { alive := true, stopping := false, restarting := false, parent := parent,
               children := [], watchers := [], name := some nm, strategy := strategy,
               maxRestarts := maxR, withinSeconds := W, restartTimestamps := [],
               mailbox := [], mailboxClosed := false, instanceGen := 1 } := by
      show lookupRt _ s.nextId = _
      refine lookupRt_append_right _ _ _ ?_
      cases parent with
      | none => exact hfresh
      | some prid =>
          dsimp only
          cases hp : lookupRt s.actors prid with
          | none => exact hfresh
          | some prt => exact lookupRt_updateRt_none _ _ _ _ hfresh
    refine ⟨hok, rfl, regGet_regSet_self _ _ _, ?_, ?_⟩
    · rw [hget]; rfl
    · rw [hget]; rfl
  · intro s rid rt hget
    exact runActorFinally_registry s rid rt hget
  · intro fuel hooks tc ta startOk s rid rt nm hget hname hok hlt
    have hdec : (checkRestartLimits rt.maxRestarts rt.withinSeconds tc
        rt.restartTimestamps).2 = true := decide_eq_true hlt
    simp only [restartActorS, hget, hname, hdec, hok, Bool.not_true,
      Bool.false_eq_true, if_false, if_true]
    rw [clearRestarting_registry]
    exact regGet_regSet_self _ _ _

/-- C7 witness: the finalizer-registry characterization and the spawn
binding evaluated on the concrete named actor. -/
theorem registry_invariant_amended_witness :
    getRt c7State 1 = some c7Named ∧
      (runActorFinally c7State 1).registry = [("worker", ⟨"local", 1⟩)] ∧
      spawnA c1State Strategy.stop 3 60 none (some "w2") =
        Except.ok (spawnState c1State Strategy.stop 3 60 none (some "w2")) ∧
      regGet (spawnState c1State Strategy.stop 3 60 none (some "w2")).1.registry "w2" =
        some ⟨"local", (3 : Int)⟩ := by
  have hsp := registry_invariant_amended.1 c1State Strategy.stop 3 60 none "w2" rfl rfl rfl
  refine ⟨rfl, ?_, hsp.1, hsp.2.2.1⟩
  rw [registry_invariant_amended.2.1 c7State 1 c7Named rfl]
  rfl

end Papyra
